import Mathlib

/-!
# Verification of the transaction-input record decoder

Shallow embedding of `blockchain_parser/input.py` (class `Input`): the
record decoder, the script-template classifier and the address resolution
engine, together with the collaborator pieces that the module imports
(`decode_varint`, `decode_uint32`, `decode_uint64`, `format_hash`, the
script tokenizer and the address encoder), which are modelled from the
design document where their code is not part of the excerpt.

Bytes are modelled as natural numbers (each intended `< 256`), byte
strings as `List Nat`.  Python's lazily-memoized properties are modelled
as explicit state transitions `Input → result × Input`; the external
tokenizer is a parameter `tokenize : List Nat → ScriptInfo`.
-/

namespace Btc

/-- Little-endian interpretation of a byte string as a natural number. -/
def leBytes (bs : List Nat) : Nat :=
  bs.foldr (fun b acc => b + 256 * acc) 0

/-- Python slice `l[a:b]` for non-negative bounds: the elements at
positions `a, a+1, …, b-1` (clamped to the list). -/
def pySlice (l : List α) (a b : Nat) : List α :=
  (l.drop a).take (b - a)

/-- Errors raised while decoding a record's length fields. -/
inductive DecodeErr where
  | malformedRecord
  deriving DecidableEq, Repr

/-- Modelled from the spec: how many little-endian payload bytes a
compact-size prefix byte `0xFD`/`0xFE`/`0xFF` demands. -/
def prefixBytes (b : Nat) : Nat :=
  if b = 0xFD then 2 else if b = 0xFE then 4 else 8

/-- Modelled from the spec: the compact-size ("varint") decoder of the
`utils` collaborator.  If the first byte is below `0xFD`, its value is the
size and one byte is consumed; otherwise the following
`prefixBytes` bytes (little-endian) hold the size (3/5/9 bytes consumed
in total).  Returns `(value, bytes_consumed)`; fails with
`MalformedRecord` when fewer bytes remain than the prefix demands. -/
def decode_varint (data : List Nat) : Except DecodeErr (Nat × Nat) :=
  match data with
  | [] => .error .malformedRecord
  | b :: rest =>
    if b < 0xFD then .ok (b, 1)
    else if rest.length < prefixBytes b then .error .malformedRecord
    else .ok (leBytes (rest.take (prefixBytes b)), 1 + prefixBytes b)

/-- Modelled from the spec: `utils.decode_uint32`, the little-endian
32-bit integer held in a 4-byte string. -/
def decode_uint32 (bs : List Nat) : Nat := leBytes bs

/-- Modelled from the spec: `utils.decode_uint64`, the little-endian
64-bit integer held in an 8-byte string. -/
def decode_uint64 (bs : List Nat) : Nat := leBytes bs

/-- Modelled from the spec: `utils.format_hash`, which renders the 32-byte
previous-output transaction identifier; the human-readable formatting is
abstracted as the byte sequence itself. -/
def format_hash (bs : List Nat) : List Nat := bs

/-- One operation of a parsed script: either raw pushed data or a numeric
opcode marker, as exposed by the external tokenizer. -/
inductive Operand where
  | data (bs : List Nat)
  | num (n : Nat)
  deriving DecidableEq, Repr

/-- Modelled from the spec: the view of a parsed script that the external
tokenizer supplies — an ordered sequence of operations, a structural
validity flag, and the template predicates (not mutually exclusive). -/
structure ScriptInfo where
  operations : List Operand
  is_valid : Bool
  is_pubkeyhash : Bool
  is_pubkey : Bool
  is_p2sh : Bool
  is_multisig : Bool
  is_return : Bool
  is_p2wpkh : Bool
  is_p2wsh : Bool
  is_unknown : Bool
  deriving DecidableEq, Repr

/-- Errors raised while resolving addresses: an operand index out of
range (Python `IndexError`), a list sliced with a non-integer count
(Python `TypeError`), or an operand whose byte length does not fit its
expected role (`AddressDerivationError` of the spec). -/
inductive AddrErr where
  | indexError
  | typeError
  | derivationError
  deriving DecidableEq, Repr

/-- Modelled from the spec: an address value produced by the external
address encoder, tagged by which construction entry point built it. -/
inductive Address where
  | public_key (bs : List Nat)
  | ripemd160h (bs : List Nat) (ty : String)
  | bech32a (program : List Nat) (version : Nat)
  deriving DecidableEq, Repr

/-- Modelled from the spec: `Address.from_public_key`, building an address
from raw public-key bytes; fails with `AddressDerivationError` when the
operand is not pushed data of a public key's byte length (33-byte
compressed or 65-byte uncompressed). -/
def Address.from_public_key (op : Operand) : Except AddrErr Address :=
  match op with
  | .data bs =>
    if bs.length = 33 ∨ bs.length = 65 then .ok (.public_key bs)
    else .error .derivationError
  | .num _ => .error .derivationError

/-- Modelled from the spec: `Address.from_ripemd160`, building an address
from a 160-bit (20-byte) hash plus a P2PKH/P2SH discriminator; fails with
`AddressDerivationError` when the operand is not a 20-byte data push. -/
def Address.from_ripemd160 (op : Operand) (ty : String) : Except AddrErr Address :=
  match op with
  | .data bs => if bs.length = 20 then .ok (.ripemd160h bs ty) else .error .derivationError
  | .num _ => .error .derivationError

/-- Modelled from the spec: `Address.from_bech32`, building an address
from a witness program plus a witness version; fails when the operand is
not pushed data. -/
def Address.from_bech32 (op : Operand) (version : Nat) : Except AddrErr Address :=
  match op with
  | .data bs => .ok (.bech32a bs version)
  | .num _ => .error .derivationError

/-- Python indexing `l[i]` for a non-negative index: raises `IndexError`
when the index is out of range. -/
def pyIndex (l : List α) (i : Nat) : Except AddrErr α :=
  match l.get? i with
  | some x => .ok x
  | none => .error .indexError

/-- Python indexing `l[-k]` for a negative index (`k > 0`): the element
`k` places from the end; raises `IndexError` when the list is shorter. -/
def pyNegIndex (l : List α) (k : Nat) : Except AddrErr α :=
  if k ≤ l.length ∧ 0 < k then pyIndex l (l.length - k) else .error .indexError

/-- The state of one `Input` object: the eagerly computed length fields
and stored byte range, the memoization cells of the lazy properties, and
the externally grown witness list.  `_value_hex` mirrors the attribute
that `Input.value` reads: it is modelled as an `Option` that no operation
of the class ever sets, so reading it while unset is Python's
`AttributeError`. -/
structure Input where
  _script_length : Nat
  _script_start : Nat
  size : Nat
  hex : List Nat
  _transaction_hash : Option (List Nat)
  _script : Option ScriptInfo
  _sequence_number : Option Nat
  _witnesses : List (List Nat)
  _addresses : Option (List Address)
  _value : Option Nat
  _value_hex : Option (List Nat)
  deriving DecidableEq, Repr

/-- `Input.__init__` (also reachable as the classmethod `Input.from_hex`):
decode the compact-size script length at offset 36, compute
`script_start = 36 + varint_length` and `size = script_start +
script_length + 4`, and store `raw_hex[:size]`; the memo cells start
unset and the witness list empty.  The only failure is the varint
decoder's `MalformedRecord`. -/
def Input.from_hex (raw_hex : List Nat) : Except DecodeErr Input :=
  match decode_varint (raw_hex.drop 36) with
  | .error e => .error e
  | .ok (script_length, varint_length) =>
    let script_start := 36 + varint_length
    let size := script_start + script_length + 4
    .ok { _script_length := script_length
          _script_start := script_start
          size := size
          hex := raw_hex.take size
          _transaction_hash := none
          _script := none
          _sequence_number := none
          _witnesses := []
          _addresses := none
          _value := none
          _value_hex := none }

/-- `Input.add_witness`: append one witness stack item. -/
def Input.add_witness (inp : Input) (w : List Nat) : Input :=
  { inp with _witnesses := inp._witnesses ++ [w] }

/-- `Input.witnesses` property: the witness list (no memoization). -/
def Input.witnesses (inp : Input) : List (List Nat) :=
  inp._witnesses

/-- `Input.transaction_hash` property: memoized `format_hash(hex[:32])`. -/
def Input.transaction_hash (inp : Input) : List Nat × Input :=
  match inp._transaction_hash with
  | some v => (v, inp)
  | none =>
    let v := format_hash (pySlice inp.hex 0 32)
    (v, { inp with _transaction_hash := some v })

/-- `Input.sequence_number` property: memoized
`decode_uint32(hex[size-4:size])`. -/
def Input.sequence_number (inp : Input) : Nat × Input :=
  match inp._sequence_number with
  | some v => (v, inp)
  | none =>
    let v := decode_uint32 (pySlice inp.hex (inp.size - 4) inp.size)
    (v, { inp with _sequence_number := some v })

/-- `Input.script` property: memoized
`Script.from_hex(hex[script_start:script_start+script_length])`, with the
external tokenizer passed as the parameter `tokenize`. -/
def Input.script (tokenize : List Nat → ScriptInfo) (inp : Input) :
    ScriptInfo × Input :=
  match inp._script with
  | some s => (s, inp)
  | none =>
    let endIdx := inp._script_start + inp._script_length
    let s := tokenize (pySlice inp.hex inp._script_start endIdx)
    (s, { inp with _script := some s })

/-- The pure classification underlying the `Input.type` property: the
validity check `script.script.is_valid()` first, then the template
predicates in the fixed source order, `unknown` when none matches. -/
def typeOfScript (s : ScriptInfo) : String :=
  if !s.is_valid then "invalid"
  else if s.is_pubkeyhash then "pubkeyhash"
  else if s.is_pubkey then "pubkey"
  else if s.is_p2sh then "p2sh"
  else if s.is_multisig then "multisig"
  else if s.is_return then "OP_RETURN"
  else if s.is_p2wpkh then "p2wpkh"
  else if s.is_p2wsh then "p2wsh"
  else "unknown"

/-- `Input.type` property: classify the (memoized) parsed script.  The
property itself is not memoized; its only state effect is filling the
script memo. -/
def Input.type (tokenize : List Nat → ScriptInfo) (inp : Input) :
    String × Input :=
  let (s, inp1) := inp.script tokenize
  (typeOfScript s, inp1)

/-- Append one address to the (already initialized) memoized list. -/
def Input.appendAddress (inp : Input) (a : Address) : Input :=
  { inp with _addresses := some ((inp._addresses.getD []) ++ [a]) }

/-- The `multisig` loop of `Input.addresses`: append
`Address.from_public_key(op)` for each operand of the slice, mutating the
memo one element at a time, and stop at the first failure (leaving the
partial list in place, as the Python loop does). -/
def Input.appendKeyAddresses (inp : Input) (ops : List Operand) :
    Except AddrErr (Option (List Address)) × Input :=
  match ops with
  | [] => (.ok none, inp)
  | op :: rest =>
    match Address.from_public_key op with
    | .error e => (.error e, inp)
    | .ok a => Input.appendKeyAddresses (inp.appendAddress a) rest

/-- `Input.addresses` property.  When the memo is unset it is first set to
the empty list, the template is classified, and the matching branch
extracts the template-specific operands and appends the built addresses
to the memo.  The Python property body has no `return` statement, so on
success the property evaluates to Python `None` (modelled as
`Except.ok none`); failures (`IndexError`, `TypeError`,
`AddressDerivationError`) propagate with the partially filled memo left
behind. -/
def Input.addresses (tokenize : List Nat → ScriptInfo) (inp : Input) :
    Except AddrErr (Option (List Address)) × Input :=
  match inp._addresses with
  | some _ => (.ok none, inp)
  | none =>
    let inp0 := { inp with _addresses := some [] }
    let (s, inp1) := inp0.script tokenize
    let t := typeOfScript s
    if t = "pubkey" then
      match pyIndex s.operations 0 with
      | .error e => (.error e, inp1)
      | .ok op =>
        match Address.from_public_key op with
        | .error e => (.error e, inp1)
        | .ok a => (.ok none, inp1.appendAddress a)
    else if t = "pubkeyhash" then
      match pyIndex s.operations 2 with
      | .error e => (.error e, inp1)
      | .ok op =>
        match Address.from_ripemd160 op "p2pkh" with
        | .error e => (.error e, inp1)
        | .ok a => (.ok none, inp1.appendAddress a)
    else if t = "p2sh" then
      match pyIndex s.operations 1 with
      | .error e => (.error e, inp1)
      | .ok op =>
        match Address.from_ripemd160 op "p2sh" with
        | .error e => (.error e, inp1)
        | .ok a => (.ok none, inp1.appendAddress a)
    else if t = "multisig" then
      match pyNegIndex s.operations 2 with
      | .error e => (.error e, inp1)
      | .ok (.data _) => (.error .typeError, inp1)
      | .ok (.num n) => inp1.appendKeyAddresses (pySlice s.operations 1 (1 + n))
    else if t = "p2wpkh" then
      match pyIndex s.operations 1 with
      | .error e => (.error e, inp1)
      | .ok op =>
        match Address.from_bech32 op 0 with
        | .error e => (.error e, inp1)
        | .ok a => (.ok none, inp1.appendAddress a)
    else if t = "p2wsh" then
      match pyIndex s.operations 1 with
      | .error e => (.error e, inp1)
      | .ok op =>
        match Address.from_bech32 op 0 with
        | .error e => (.error e, inp1)
        | .ok a => (.ok none, inp1.appendAddress a)
    else (.ok none, inp1)

/-- Error raised by reading an attribute that was never assigned. -/
inductive ValueErr where
  | attributeError
  deriving DecidableEq, Repr

/-- `Input.value` property: memoized `decode_uint64(self._value_hex)`.
Reading `_value_hex` while it is unset raises `AttributeError` before
anything is assigned. -/
def Input.value (inp : Input) : Except ValueErr Nat × Input :=
  match inp._value with
  | some v => (.ok v, inp)
  | none =>
    match inp._value_hex with
    | none => (.error .attributeError, inp)
    | some bs =>
      let v := decode_uint64 bs
      (.ok v, { inp with _value := some v })

/-- One public operation of the `Input` class, for stating invariants
over arbitrary call sequences. -/
inductive ClassOp where
  | addWitness (w : List Nat)
  | getTransactionHash
  | getSequenceNumber
  | getScript
  | getType
  | getWitnesses
  | getAddresses
  | getValue
  deriving DecidableEq, Repr

/-- The state reached after performing one class operation (for fallible
properties, the state at the point the result or error is returned). -/
def applyOp (tokenize : List Nat → ScriptInfo) (inp : Input) (op : ClassOp) :
    Input :=
  match op with
  | .addWitness w => inp.add_witness w
  | .getTransactionHash => inp.transaction_hash.2
  | .getSequenceNumber => inp.sequence_number.2
  | .getScript => (inp.script tokenize).2
  | .getType => (inp.type tokenize).2
  | .getWitnesses => inp
  | .getAddresses => (inp.addresses tokenize).2
  | .getValue => inp.value.2

/-! ## Concrete records used by the witnesses, counterexamples and
code-bug evaluations -/

/-- A 20-byte (160-bit) hash. -/
def h20 : List Nat := List.replicate 20 0xAB

/-- A complete 43-byte input record: 32-byte previous-output hash,
4-byte previous-output index, 1-byte compact size `2`, 2 script bytes,
4-byte sequence number. -/
def rawA : List Nat :=
  List.replicate 32 0 ++ [0, 0, 0, 0] ++ [2] ++ [0xAB, 0xCD] ++ [1, 0, 0, 0]

/-- The record decoded from `rawA`. -/
def cInpA : Input :=
  { _script_length := 2
    _script_start := 37
    size := 43
    hex := rawA
    _transaction_hash := none
    _script := none
    _sequence_number := none
    _witnesses := []
    _addresses := none
    _value := none
    _value_hex := none }

/-- A truncated buffer: the 36 fixed bytes and a compact size declaring
5 script bytes, but none of the script or sequence bytes present. -/
def rawShort : List Nat :=
  List.replicate 32 0 ++ [0, 0, 0, 0] ++ [5]

/-- The record the constructor builds from `rawShort` (it does not
fail). -/
def cInpShort : Input :=
  { _script_length := 5
    _script_start := 37
    size := 46
    hex := rawShort
    _transaction_hash := none
    _script := none
    _sequence_number := none
    _witnesses := []
    _addresses := none
    _value := none
    _value_hex := none }

/-- A tokenizer answering the standard pay-to-public-key-hash script
`OP_DUP OP_HASH160 <h20> OP_EQUALVERIFY OP_CHECKSIG`. -/
def tokPKH : List Nat → ScriptInfo := fun _ =>
  { operations := [.num 118, .num 169, .data h20, .num 136, .num 172]
    is_valid := true
    is_pubkeyhash := true
    is_pubkey := false
    is_p2sh := false
    is_multisig := false
    is_return := false
    is_p2wpkh := false
    is_p2wsh := false
    is_unknown := false }

/-- First participant key of the 2-of-3 multisig example (a 33-byte
compressed public key, the length the modelled encoder accepts). -/
def pk1 : List Nat := 0x02 :: List.replicate 32 0x11

/-- Second participant key of the 2-of-3 multisig example. -/
def pk2 : List Nat := 0x02 :: List.replicate 32 0x22

/-- Third participant key of the 2-of-3 multisig example. -/
def pk3 : List Nat := 0x02 :: List.replicate 32 0x33

/-- A tokenizer answering the bare 2-of-3 multisig script
`OP_2 <pk1> <pk2> <pk3> OP_3 OP_CHECKMULTISIG`. -/
def tokMS : List Nat → ScriptInfo := fun _ =>
  { operations := [.num 2, .data pk1, .data pk2, .data pk3, .num 3, .num 174]
    is_valid := true
    is_pubkeyhash := false
    is_pubkey := false
    is_p2sh := false
    is_multisig := true
    is_return := false
    is_p2wpkh := false
    is_p2wsh := false
    is_unknown := false }

/-- A tokenizer answering a structurally invalid script. -/
def tokInvalid : List Nat → ScriptInfo := fun _ =>
  { operations := []
    is_valid := false
    is_pubkeyhash := false
    is_pubkey := false
    is_p2sh := false
    is_multisig := false
    is_return := false
    is_p2wpkh := false
    is_p2wsh := false
    is_unknown := false }

/-- A tokenizer answering a valid script matching no template. -/
def tokUnknown : List Nat → ScriptInfo := fun _ =>
  { operations := [.num 1]
    is_valid := true
    is_pubkeyhash := false
    is_pubkey := false
    is_p2sh := false
    is_multisig := false
    is_return := false
    is_p2wpkh := false
    is_p2wsh := false
    is_unknown := true }

/-- A tokenizer answering an `OP_RETURN` data-carrier script. -/
def tokReturn : List Nat → ScriptInfo := fun _ =>
  { operations := [.num 106]
    is_valid := true
    is_pubkeyhash := false
    is_pubkey := false
    is_p2sh := false
    is_multisig := false
    is_return := true
    is_p2wpkh := false
    is_p2wsh := false
    is_unknown := false }

/-- The outcome of the multisig append loop, computed functionally:
the first component is success or the first failure, the second the
addresses appended to the memo before stopping. -/
def keysLoop (ops : List Operand) : Except AddrErr Unit × List Address :=
  match ops with
  | [] => (.ok (), [])
  | op :: rest =>
    match Address.from_public_key op with
    | .error e => (.error e, [])
    | .ok a =>
      let p := keysLoop rest
      (p.1, a :: p.2)

/-- The outcome of one run of the resolution logic on a parsed script:
success or the first failure, together with the addresses left in the
memo. -/
def resolveStep (s : ScriptInfo) : Except AddrErr Unit × List Address :=
  let t := typeOfScript s
  if t = "pubkey" then
    match pyIndex s.operations 0 with
    | .error e => (.error e, [])
    | .ok op =>
      match Address.from_public_key op with
      | .error e => (.error e, [])
      | .ok a => (.ok (), [a])
  else if t = "pubkeyhash" then
    match pyIndex s.operations 2 with
    | .error e => (.error e, [])
    | .ok op =>
      match Address.from_ripemd160 op "p2pkh" with
      | .error e => (.error e, [])
      | .ok a => (.ok (), [a])
  else if t = "p2sh" then
    match pyIndex s.operations 1 with
    | .error e => (.error e, [])
    | .ok op =>
      match Address.from_ripemd160 op "p2sh" with
      | .error e => (.error e, [])
      | .ok a => (.ok (), [a])
  else if t = "multisig" then
    match pyNegIndex s.operations 2 with
    | .error e => (.error e, [])
    | .ok (.data _) => (.error .typeError, [])
    | .ok (.num n) => keysLoop (pySlice s.operations 1 (1 + n))
  else if t = "p2wpkh" then
    match pyIndex s.operations 1 with
    | .error e => (.error e, [])
    | .ok op =>
      match Address.from_bech32 op 0 with
      | .error e => (.error e, [])
      | .ok a => (.ok (), [a])
  else if t = "p2wsh" then
    match pyIndex s.operations 1 with
    | .error e => (.error e, [])
    | .ok op =>
      match Address.from_bech32 op 0 with
      | .error e => (.error e, [])
      | .ok a => (.ok (), [a])
  else (.ok (), [])

/-- A tokenizer that flags `pubkeyhash` on a script with no operations at
all — the template predicates are the external tokenizer's, and nothing
in this module constrains them to guarantee the operand the branch
indexes. -/
def tokBadPKH : List Nat → ScriptInfo := fun _ =>
  { operations := []
    is_valid := true
    is_pubkeyhash := true
    is_pubkey := false
    is_p2sh := false
    is_multisig := false
    is_return := false
    is_p2wpkh := false
    is_p2wsh := false
    is_unknown := false }

/-- The post-state of the successful `pubkeyhash` resolution on
`cInpA`. -/
def cInpAfterPKH : Input :=
  { _script_length := 2
    _script_start := 37
    size := 43
    hex := rawA
    _transaction_hash := none
    _script := some (tokPKH [0xAB, 0xCD])
    _sequence_number := none
    _witnesses := []
    _addresses := some [Address.ripemd160h h20 "p2pkh"]
    _value := none
    _value_hex := none }

/-! ## Basic lemmas about the varint decoder and the constructor -/

/-- Every compact-size prefix demands at least two payload bytes. -/
theorem prefixBytes_pos (b : Nat) : 2 ≤ prefixBytes b := by
  unfold prefixBytes
  split
  · omega
  · split <;> omega

/-- On success the varint decoder consumed at least one byte and at most
the bytes it was given. -/
theorem decode_varint_consumed {data : List Nat} {L v : Nat}
    (h : decode_varint data = .ok (L, v)) : 1 ≤ v ∧ v ≤ data.length := by
  cases data with
  | nil => simp [decode_varint] at h
  | cons b rest =>
    by_cases hb : b < 0xFD
    · simp [decode_varint, hb] at h
      simp only [List.length_cons]
      omega
    · by_cases hr : rest.length < prefixBytes b
      · simp [decode_varint, hb, hr] at h
      · simp [decode_varint, hb, hr] at h
        simp only [List.length_cons]
        omega

/-- The varint decoder only looks at the bytes it consumes: truncating
the data anywhere at or beyond the consumed prefix leaves the result
unchanged. -/
theorem decode_varint_take {data : List Nat} {L v : Nat} (m : Nat)
    (h : decode_varint data = .ok (L, v)) (hm : v ≤ m) :
    decode_varint (data.take m) = .ok (L, v) := by
  cases data with
  | nil => simp [decode_varint] at h
  | cons b rest =>
    have hm1 : 1 ≤ m := by
      have := (decode_varint_consumed h).1
      omega
    obtain ⟨k, rfl⟩ : ∃ k, m = k + 1 := ⟨m - 1, by omega⟩
    simp only [List.take_succ_cons]
    by_cases hb : b < 0xFD
    · simp [decode_varint, hb] at h ⊢
      exact h
    · by_cases hr : rest.length < prefixBytes b
      · simp [decode_varint, hb, hr] at h
      · simp [decode_varint, hb, hr] at h
        obtain ⟨hL, hv⟩ := h
        have hk : prefixBytes b ≤ k := by omega
        have hlen : ¬ (rest.take k).length < prefixBytes b := by
          simp only [List.length_take]
          omega
        have htt : (rest.take k).take (prefixBytes b) = rest.take (prefixBytes b) := by
          have hmin : min (prefixBytes b) k = prefixBytes b := by omega
          rw [List.take_take, hmin]
        simp only [decode_varint, hb, if_false, hlen, if_neg, htt]
        simp [hL, hv, hlen]

/-- Unfolding of a successful construction: every field of the record in
terms of the raw buffer and the decoded varint. -/
theorem from_hex_spec {raw : List Nat} {inp : Input}
    (h : Input.from_hex raw = .ok inp) :
    ∃ L v, decode_varint (raw.drop 36) = .ok (L, v) ∧
      inp._script_length = L ∧ inp._script_start = 36 + v ∧
      inp.size = 36 + v + L + 4 ∧ inp.hex = raw.take (36 + v + L + 4) ∧
      inp._transaction_hash = none ∧ inp._script = none ∧
      inp._sequence_number = none ∧ inp._witnesses = [] ∧
      inp._addresses = none ∧ inp._value = none ∧ inp._value_hex = none := by
  unfold Input.from_hex at h
  split at h
  · exact absurd h (by simp)
  · rename_i L v heq
    refine ⟨L, v, heq, ?_⟩
    simp only [Except.ok.injEq] at h
    subst h
    exact ⟨rfl, rfl, rfl, rfl, rfl, rfl, rfl, rfl, rfl, rfl, rfl⟩

/-- Byte strings whose entries are bytes stand for numbers below
`256 ^ length`. -/
theorem leBytes_lt {bs : List Nat} (h : ∀ b ∈ bs, b < 256) :
    leBytes bs < 256 ^ bs.length := by
  induction bs with
  | nil => simp [leBytes]
  | cons b rest ih =>
    have hb : b < 256 := h b (by simp)
    have hrest := ih (fun x hx => h x (by simp [hx]))
    simp only [leBytes, List.foldr_cons, List.length_cons] at hrest ⊢
    calc b + 256 * List.foldr (fun b acc => b + 256 * acc) 0 rest
        < 256 + 256 * List.foldr (fun b acc => b + 256 * acc) 0 rest := by omega
      _ ≤ 256 * 256 ^ rest.length := by
          have : List.foldr (fun b acc => b + 256 * acc) 0 rest + 1 ≤ 256 ^ rest.length :=
            hrest
          nlinarith
      _ = 256 ^ (rest.length + 1) := by ring


/-- The two eager fields of a successful construction, phrased against a
given varint decoding of the buffer. -/
theorem from_hex_ok_fields {raw : List Nat} {L vlen : Nat} {inp : Input}
    (hvar : decode_varint (raw.drop 36) = .ok (L, vlen))
    (hok : Input.from_hex raw = .ok inp) :
    inp.size = 36 + vlen + L + 4 ∧ inp.hex = raw.take (36 + vlen + L + 4) := by
  unfold Input.from_hex at hok
  rw [hvar] at hok
  simp only [Except.ok.injEq] at hok
  subst hok
  exact ⟨rfl, rfl⟩

/-! ## C3: declared size and exact consumption -/

/-- C3: for every buffer that begins with a record carrying a valid
compact-size-prefixed script length `L` (consuming `vlen` bytes) followed
by `L` script bytes and a 4-byte sequence field, the constructed record
has `size = 36 + vlen + L + 4` and its stored byte range `hex` is exactly
the first `size` bytes of the buffer — the decoder consumes exactly
`size` bytes, no more, no less. -/
theorem C3_size_and_exact_consumption (raw : List Nat) (L vlen : Nat)
    (inp : Input)
    (hvar : decode_varint (raw.drop 36) = .ok (L, vlen))
    (hlen : 36 + vlen + L + 4 ≤ raw.length)
    (hok : Input.from_hex raw = .ok inp) :
    inp.size = 36 + vlen + L + 4 ∧
    inp.hex = raw.take (36 + vlen + L + 4) ∧
    inp.hex.length = 36 + vlen + L + 4 := by
  obtain ⟨hsize, hhex⟩ := from_hex_ok_fields hvar hok
  refine ⟨hsize, hhex, ?_⟩
  rw [hhex, List.length_take]
  omega

/-- Witness for C3 at the concrete buffer `rawA` (`L = 2`, `vlen = 1`). -/
theorem C3_size_and_exact_consumption_witness :
    decode_varint (rawA.drop 36) = .ok (2, 1) ∧
    36 + 1 + 2 + 4 ≤ rawA.length ∧
    Input.from_hex rawA = .ok cInpA ∧
    (cInpA.size = 36 + 1 + 2 + 4 ∧
     cInpA.hex = rawA.take (36 + 1 + 2 + 4) ∧
     cInpA.hex.length = 36 + 1 + 2 + 4) :=
  ⟨by rfl, by decide, by rfl,
   C3_size_and_exact_consumption rawA 2 1 cInpA (by rfl) (by decide) (by rfl)⟩

/-! ## C2: a buffer shorter than its declared size -/

/-- C2 counterexample: `rawShort` is a 37-byte buffer whose declared
record size is 46 (`> 37`), yet constructing the record succeeds instead
of failing with `MalformedRecord` — the claim is false on the code. -/
theorem C2_counterexample_construction_succeeds :
    rawShort.length = 37 ∧
    (Input.from_hex rawShort).toOption.map Input.size = some 46 ∧
    (Input.from_hex rawShort).isOk = true :=
  ⟨by decide, by rfl, by rfl⟩

/-- C2 amended: when the declared size exceeds the buffer's length (but
the compact-size field itself decodes), construction does not fail:
it produces a record whose stored byte range is the whole (truncated)
buffer, strictly shorter than the declared `size`. -/
theorem C2_amended_truncation (raw : List Nat) (L vlen : Nat) (inp : Input)
    (hvar : decode_varint (raw.drop 36) = .ok (L, vlen))
    (hok : Input.from_hex raw = .ok inp)
    (hshort : raw.length < 36 + vlen + L + 4) :
    inp.size = 36 + vlen + L + 4 ∧ inp.hex = raw ∧
    inp.hex.length < inp.size := by
  obtain ⟨hsize, hhex⟩ := from_hex_ok_fields hvar hok
  have hraw : raw.take (36 + vlen + L + 4) = raw :=
    List.take_of_length_le (by omega)
  refine ⟨hsize, by rw [hhex, hraw], ?_⟩
  rw [hhex, List.length_take, hsize]
  omega

/-- Witness for the amended C2 at the concrete buffer `rawShort`
(`L = 5`, `vlen = 1`, declared size 46, buffer length 37). -/
theorem C2_amended_truncation_witness :
    decode_varint (rawShort.drop 36) = .ok (5, 1) ∧
    Input.from_hex rawShort = .ok cInpShort ∧
    rawShort.length < 36 + 1 + 5 + 4 ∧
    (cInpShort.size = 36 + 1 + 5 + 4 ∧ cInpShort.hex = rawShort ∧
     cInpShort.hex.length < cInpShort.size) :=
  ⟨by rfl, by rfl, by decide,
   C2_amended_truncation rawShort 5 1 cInpShort (by rfl) (by rfl) (by decide)⟩

/-! ## C7: the sequence number -/

/-- C7: for every record constructed from a buffer that holds all of its
declared `size` bytes (each a byte value), the `sequence_number` property
returns the little-endian integer read from the last four bytes of the
stored byte range, a 32-bit value. -/
theorem C7_sequence_number_last_four_bytes (raw : List Nat) (inp : Input)
    (hok : Input.from_hex raw = .ok inp)
    (hfull : inp.size ≤ raw.length)
    (hbytes : ∀ b ∈ raw, b < 256) :
    inp.sequence_number.1 = leBytes (inp.hex.drop (inp.hex.length - 4)) ∧
    inp.sequence_number.1 < 2 ^ 32 := by
  obtain ⟨L, v, hvar, -, -, hsize, hhex, -, -, hseq, -⟩ := from_hex_spec hok
  have hlen : inp.hex.length = inp.size := by
    rw [hhex, List.length_take, hsize]
    rw [hsize] at hfull
    omega
  have hslice : pySlice inp.hex (inp.size - 4) inp.size =
      inp.hex.drop (inp.hex.length - 4) := by
    unfold pySlice
    rw [hlen]
    have h4 : 4 ≤ inp.size := by omega
    have htk : inp.size - (inp.size - 4) = 4 := by omega
    rw [htk]
    apply List.take_of_length_le
    rw [List.length_drop]
    omega
  have hval : inp.sequence_number.1 =
      leBytes (inp.hex.drop (inp.hex.length - 4)) := by
    unfold Input.sequence_number
    rw [hseq]
    simp only [decode_uint32, hslice]
  refine ⟨hval, ?_⟩
  rw [hval]
  have hsub : ∀ b ∈ inp.hex.drop (inp.hex.length - 4), b < 256 := by
    intro b hb
    apply hbytes
    have h1 : b ∈ inp.hex := List.mem_of_mem_drop hb
    rw [hhex] at h1
    exact List.mem_of_mem_take h1
  have hlt := leBytes_lt hsub
  have hdl : (inp.hex.drop (inp.hex.length - 4)).length = 4 := by
    rw [List.length_drop, hlen]
    omega
  rw [hdl] at hlt
  calc leBytes (inp.hex.drop (inp.hex.length - 4)) < 256 ^ 4 := hlt
    _ = 2 ^ 32 := by norm_num

/-- Witness for C7 at the concrete buffer `rawA`: the sequence field is
`[1,0,0,0]`, i.e. the value 1. -/
theorem C7_sequence_number_witness :
    Input.from_hex rawA = .ok cInpA ∧
    cInpA.size ≤ rawA.length ∧
    (∀ b ∈ rawA, b < 256) ∧
    (cInpA.sequence_number.1 = leBytes (cInpA.hex.drop (cInpA.hex.length - 4)) ∧
     cInpA.sequence_number.1 < 2 ^ 32) :=
  ⟨by rfl, by decide, by decide,
   C7_sequence_number_last_four_bytes rawA cInpA (by rfl) (by decide) (by decide)⟩

/-! ## C4: the classifier and its priority order -/

/-- C4: the classifier returns exactly one of the nine template tags,
decided by first match in the fixed priority order `invalid`,
`pubkeyhash`, `pubkey`, `p2sh`, `multisig`, `OP_RETURN`, `p2wpkh`,
`p2wsh`, `unknown`; each tag is returned exactly when structural
validity and every earlier predicate fail and its own predicate holds, so
a script satisfying both an earlier and a later predicate receives the
earlier tag. -/
theorem C4_classifier_priority (s : ScriptInfo) :
    (typeOfScript s = "invalid" ∨ typeOfScript s = "pubkeyhash" ∨
     typeOfScript s = "pubkey" ∨ typeOfScript s = "p2sh" ∨
     typeOfScript s = "multisig" ∨ typeOfScript s = "OP_RETURN" ∨
     typeOfScript s = "p2wpkh" ∨ typeOfScript s = "p2wsh" ∨
     typeOfScript s = "unknown") ∧
    (typeOfScript s = "invalid" ↔ s.is_valid = false) ∧
    (typeOfScript s = "pubkeyhash" ↔
      s.is_valid = true ∧ s.is_pubkeyhash = true) ∧
    (typeOfScript s = "pubkey" ↔
      s.is_valid = true ∧ s.is_pubkeyhash = false ∧ s.is_pubkey = true) ∧
    (typeOfScript s = "p2sh" ↔
      s.is_valid = true ∧ s.is_pubkeyhash = false ∧ s.is_pubkey = false ∧
      s.is_p2sh = true) ∧
    (typeOfScript s = "multisig" ↔
      s.is_valid = true ∧ s.is_pubkeyhash = false ∧ s.is_pubkey = false ∧
      s.is_p2sh = false ∧ s.is_multisig = true) ∧
    (typeOfScript s = "OP_RETURN" ↔
      s.is_valid = true ∧ s.is_pubkeyhash = false ∧ s.is_pubkey = false ∧
      s.is_p2sh = false ∧ s.is_multisig = false ∧ s.is_return = true) ∧
    (typeOfScript s = "p2wpkh" ↔
      s.is_valid = true ∧ s.is_pubkeyhash = false ∧ s.is_pubkey = false ∧
      s.is_p2sh = false ∧ s.is_multisig = false ∧ s.is_return = false ∧
      s.is_p2wpkh = true) ∧
    (typeOfScript s = "p2wsh" ↔
      s.is_valid = true ∧ s.is_pubkeyhash = false ∧ s.is_pubkey = false ∧
      s.is_p2sh = false ∧ s.is_multisig = false ∧ s.is_return = false ∧
      s.is_p2wpkh = false ∧ s.is_p2wsh = true) ∧
    (typeOfScript s = "unknown" ↔
      s.is_valid = true ∧ s.is_pubkeyhash = false ∧ s.is_pubkey = false ∧
      s.is_p2sh = false ∧ s.is_multisig = false ∧ s.is_return = false ∧
      s.is_p2wpkh = false ∧ s.is_p2wsh = false) := by
  rcases s with ⟨ops, v, t1, t2, t3, t4, t5, t6, t7, t8⟩
  cases v <;> cases t1 <;> cases t2 <;> cases t3 <;> cases t4 <;>
    cases t5 <;> cases t6 <;> cases t7 <;> simp [typeOfScript]

/-! ## C1, C5, C6: the `addresses` property

The Python property body fills the memoized `_addresses` list but has no
`return` statement, so every access evaluates to `None` (here
`Except.ok none`) instead of the list the docstring promises.  The
following evaluations exhibit this at concrete records: the resolution
logic computes the documented list into the memo, and the accessor still
returns `None`. -/


/-- C1 (code bug): on a record whose script classifies as `pubkeyhash`,
the resolution logic builds exactly the one P2PKH address from the
operand at index 2 into the memo — but the property itself evaluates to
`None`, not to that list, because its body never returns it. -/
theorem C1_pubkeyhash_missing_return :
    Input.from_hex rawA = .ok cInpA ∧
    (cInpA.type tokPKH).1 = "pubkeyhash" ∧
    (tokPKH []).operations.get? 2 = some (.data h20) ∧
    ((cInpA.addresses tokPKH).2)._addresses =
      some [Address.ripemd160h h20 "p2pkh"] ∧
    (cInpA.addresses tokPKH).1 = .ok none := by
  exact ⟨rfl, rfl, rfl, rfl, rfl⟩


/-- C5 (code bug): on a 2-of-3 multisig record the resolver reads the
count 3 from the second-to-last operand (not the threshold 2) and builds
the three participant-key addresses, in script order, into the memo — but
the property itself evaluates to `None`, not to that three-element list,
because its body never returns it. -/
theorem C5_multisig_missing_return :
    (pk1.length = 33 ∧ pk2.length = 33 ∧ pk3.length = 33) ∧
    (cInpA.type tokMS).1 = "multisig" ∧
    pyNegIndex (tokMS []).operations 2 = .ok (.num 3) ∧
    pySlice (tokMS []).operations 1 (1 + 3) =
      [.data pk1, .data pk2, .data pk3] ∧
    ((cInpA.addresses tokMS).2)._addresses =
      some [Address.public_key pk1, Address.public_key pk2,
            Address.public_key pk3] ∧
    (cInpA.addresses tokMS).1 = .ok none := by
  exact ⟨⟨rfl, rfl, rfl⟩, rfl, rfl, rfl, rfl, rfl⟩


/-- C6 (code bug): on records whose template is `invalid`, `unknown` or
`OP_RETURN` the property raises no error and the memo is left as the
empty list — but the property itself evaluates to `None`, not to the
empty list the claim and the docstring promise. -/
theorem C6_addressless_templates_missing_return :
    ((cInpA.type tokInvalid).1 = "invalid" ∧
     (cInpA.addresses tokInvalid).1 = .ok none ∧
     ((cInpA.addresses tokInvalid).2)._addresses = some []) ∧
    ((cInpA.type tokUnknown).1 = "unknown" ∧
     (cInpA.addresses tokUnknown).1 = .ok none ∧
     ((cInpA.addresses tokUnknown).2)._addresses = some []) ∧
    ((cInpA.type tokReturn).1 = "OP_RETURN" ∧
     (cInpA.addresses tokReturn).1 = .ok none ∧
     ((cInpA.addresses tokReturn).2)._addresses = some []) := by
  exact ⟨⟨rfl, rfl, rfl⟩, ⟨rfl, rfl, rfl⟩, ⟨rfl, rfl, rfl⟩⟩

/-! ## A closed form for the `addresses` property -/


/-- The `script` property always lands in the state whose memo holds the
value it returns. -/
theorem script_eq_memoized (tok : List Nat → ScriptInfo) (inp : Input) :
    Input.script tok inp =
      ((Input.script tok inp).1,
       { inp with _script := some (Input.script tok inp).1 }) := by
  rcases inp with ⟨sl, ss, sz, hx, th, sc, sq, wt, ad, vl, vh⟩
  cases sc <;> rfl

/-- The append loop of the `multisig` branch against `keysLoop`: starting
from a memo holding `acc`, it returns `None` on success or the first
failure, leaving `acc` extended by the loop's appends. -/
theorem appendKeyAddresses_eq (ops : List Operand) (inp : Input)
    (acc : List Address) (h : inp._addresses = some acc) :
    Input.appendKeyAddresses inp ops =
      ((keysLoop ops).1.map (fun _ => (none : Option (List Address))),
       { inp with _addresses := some (acc ++ (keysLoop ops).2) }) := by
  induction ops generalizing inp acc with
  | nil =>
    rcases inp with ⟨sl, ss, sz, hx, th, sc, sq, wt, ad, vl, vh⟩
    simp only at h
    subst h
    simp [Input.appendKeyAddresses, keysLoop, Except.map]
  | cons op rest ih =>
    cases hop : Address.from_public_key op with
    | error e =>
      rcases inp with ⟨sl, ss, sz, hx, th, sc, sq, wt, ad, vl, vh⟩
      simp only at h
      subst h
      simp [Input.appendKeyAddresses, keysLoop, hop, Except.map]
    | ok a =>
      have hmem : (inp.appendAddress a)._addresses = some (acc ++ [a]) := by
        rcases inp with ⟨sl, ss, sz, hx, th, sc, sq, wt, ad, vl, vh⟩
        simp only at h
        subst h
        simp [Input.appendAddress]
      have := ih (inp.appendAddress a) (acc ++ [a]) hmem
      rcases inp with ⟨sl, ss, sz, hx, th, sc, sq, wt, ad, vl, vh⟩
      simp only at h
      subst h
      simp only [Input.appendKeyAddresses, hop, this]
      simp [Input.appendAddress, keysLoop, hop, List.append_assoc]

/-- Closed form of the `addresses` property on a record whose memo is
unset: the returned value is `None` (success) or the first resolution
failure, computed by `resolveStep` from the parsed script, and the
post-state is the pre-state with the script memo filled and the address
memo holding `resolveStep`'s list. -/
theorem addresses_closed_form (tok : List Nat → ScriptInfo) (inp : Input)
    (h : inp._addresses = none) :
    Input.addresses tok inp =
      ((resolveStep (Input.script tok inp).1).1.map
          (fun _ => (none : Option (List Address))),
       { inp with
           _script := some (Input.script tok inp).1
           _addresses := some (resolveStep (Input.script tok inp).1).2 }) := by
  rcases inp with ⟨sl, ss, sz, hx, th, sc, sq, wt, ad, vl, vh⟩
  simp only at h
  subst h
  cases sc with
  | some s0 =>
    show Input.addresses tok _ = _
    simp only [Input.addresses, Input.script, resolveStep]
    split_ifs with h1 h2 h3 h4 h5 h6
    · cases hi : pyIndex s0.operations 0 with
      | error e => simp [hi, Except.map]
      | ok op =>
        cases ha : Address.from_public_key op with
        | error e => simp [hi, ha, Except.map]
        | ok a => simp [hi, ha, Except.map, Input.appendAddress]
    · cases hi : pyIndex s0.operations 2 with
      | error e => simp [hi, Except.map]
      | ok op =>
        cases ha : Address.from_ripemd160 op "p2pkh" with
        | error e => simp [hi, ha, Except.map]
        | ok a => simp [hi, ha, Except.map, Input.appendAddress]
    · cases hi : pyIndex s0.operations 1 with
      | error e => simp [hi, Except.map]
      | ok op =>
        cases ha : Address.from_ripemd160 op "p2sh" with
        | error e => simp [hi, ha, Except.map]
        | ok a => simp [hi, ha, Except.map, Input.appendAddress]
    · cases hi : pyNegIndex s0.operations 2 with
      | error e => simp [hi, Except.map]
      | ok op =>
        cases op with
        | data bs => simp [hi, Except.map]
        | num n =>
          simp only [hi]
          rw [appendKeyAddresses_eq _ _ [] (by rfl)]
          simp
    · cases hi : pyIndex s0.operations 1 with
      | error e => simp [hi, Except.map]
      | ok op =>
        cases ha : Address.from_bech32 op 0 with
        | error e => simp [hi, ha, Except.map]
        | ok a => simp [hi, ha, Except.map, Input.appendAddress]
    · cases hi : pyIndex s0.operations 1 with
      | error e => simp [hi, Except.map]
      | ok op =>
        cases ha : Address.from_bech32 op 0 with
        | error e => simp [hi, ha, Except.map]
        | ok a => simp [hi, ha, Except.map, Input.appendAddress]
    · simp [Except.map]
  | none =>
    show Input.addresses tok _ = _
    simp only [Input.addresses, Input.script, resolveStep]
    split_ifs with h1 h2 h3 h4 h5 h6
    · cases hi : pyIndex (tok (pySlice hx ss (ss + sl))).operations 0 with
      | error e => simp [hi, Except.map]
      | ok op =>
        cases ha : Address.from_public_key op with
        | error e => simp [hi, ha, Except.map]
        | ok a => simp [hi, ha, Except.map, Input.appendAddress]
    · cases hi : pyIndex (tok (pySlice hx ss (ss + sl))).operations 2 with
      | error e => simp [hi, Except.map]
      | ok op =>
        cases ha : Address.from_ripemd160 op "p2pkh" with
        | error e => simp [hi, ha, Except.map]
        | ok a => simp [hi, ha, Except.map, Input.appendAddress]
    · cases hi : pyIndex (tok (pySlice hx ss (ss + sl))).operations 1 with
      | error e => simp [hi, Except.map]
      | ok op =>
        cases ha : Address.from_ripemd160 op "p2sh" with
        | error e => simp [hi, ha, Except.map]
        | ok a => simp [hi, ha, Except.map, Input.appendAddress]
    · cases hi : pyNegIndex (tok (pySlice hx ss (ss + sl))).operations 2 with
      | error e => simp [hi, Except.map]
      | ok op =>
        cases op with
        | data bs => simp [hi, Except.map]
        | num n =>
          simp only [hi]
          rw [appendKeyAddresses_eq _ _ [] (by rfl)]
          simp
    · cases hi : pyIndex (tok (pySlice hx ss (ss + sl))).operations 1 with
      | error e => simp [hi, Except.map]
      | ok op =>
        cases ha : Address.from_bech32 op 0 with
        | error e => simp [hi, ha, Except.map]
        | ok a => simp [hi, ha, Except.map, Input.appendAddress]
    · cases hi : pyIndex (tok (pySlice hx ss (ss + sl))).operations 1 with
      | error e => simp [hi, Except.map]
      | ok op =>
        cases ha : Address.from_bech32 op 0 with
        | error e => simp [hi, ha, Except.map]
        | ok a => simp [hi, ha, Except.map, Input.appendAddress]
    · simp [Except.map]

/-- Once the address memo is set, every access returns `None` and leaves
the state untouched. -/
theorem addresses_memo_hit (tok : List Nat → ScriptInfo) (inp : Input)
    (l : List Address) (h : inp._addresses = some l) :
    Input.addresses tok inp = (.ok none, inp) := by
  rcases inp with ⟨sl, ss, sz, hx, th, sc, sq, wt, ad, vl, vh⟩
  simp only at h
  subst h
  rfl

/-- A successful access returns `None` and leaves the memo set. -/
theorem addresses_ok_inv (tok : List Nat → ScriptInfo) (inp : Input)
    (r : Option (List Address)) (j : Input)
    (h : Input.addresses tok inp = (.ok r, j)) :
    r = none ∧ j._addresses.isSome = true := by
  cases had : inp._addresses with
  | some l =>
    rw [addresses_memo_hit tok inp l had] at h
    obtain ⟨h1, h2⟩ := Prod.mk.injEq .. ▸ h
    subst h2
    simp only [Except.ok.injEq] at h1
    exact ⟨h1.symm, by simp [had]⟩
  | none =>
    rw [addresses_closed_form tok inp had] at h
    obtain ⟨h1, h2⟩ := Prod.mk.injEq .. ▸ h
    subst h2
    cases hr : (resolveStep (Input.script tok inp).1).1 with
    | error e => rw [hr] at h1; exact absurd h1 (by simp [Except.map])
    | ok u =>
      rw [hr] at h1
      simp only [Except.map, Except.ok.injEq] at h1
      exact ⟨h1.symm, by simp⟩

/-- The `witnesses` field of the constructed record, and the memoized
fields, via `from_hex_spec` but for direct use. -/
theorem from_hex_memos_unset {raw : List Nat} {inp : Input}
    (h : Input.from_hex raw = .ok inp) :
    inp._witnesses = [] ∧ inp._addresses = none ∧ inp._value = none ∧
    inp._value_hex = none := by
  obtain ⟨L, v, -, -, -, -, -, -, -, -, hw, ha, hv, hvh⟩ := from_hex_spec h
  exact ⟨hw, ha, hv, hvh⟩

/-! ## C9: witness attachment and its frame -/

/-- Folding `add_witness` over a list of items appends them, in order, to
the witness sequence and changes nothing else. -/
theorem foldl_add_witness (ws : List (List Nat)) (inp : Input) :
    ws.foldl Input.add_witness inp =
      { inp with _witnesses := inp._witnesses ++ ws } := by
  induction ws generalizing inp with
  | nil =>
    rcases inp with ⟨sl, ss, sz, hx, th, sc, sq, wt, ad, vl, vh⟩
    simp
  | cons w rest ih =>
    rcases inp with ⟨sl, ss, sz, hx, th, sc, sq, wt, ad, vl, vh⟩
    rw [List.foldl_cons, ih]
    simp [Input.add_witness]

/-- Every exposed field and property value of the record is unchanged by
replacing the witness list: the accessors never read `_witnesses`. -/
theorem accessors_ignore_witnesses (tok : List Nat → ScriptInfo)
    (inp : Input) (x : List (List Nat)) :
    ({ inp with _witnesses := x } : Input).size = inp.size ∧
    ({ inp with _witnesses := x } : Input).hex = inp.hex ∧
    ({ inp with _witnesses := x } : Input).transaction_hash.1 =
      inp.transaction_hash.1 ∧
    ({ inp with _witnesses := x } : Input).sequence_number.1 =
      inp.sequence_number.1 ∧
    (Input.script tok { inp with _witnesses := x }).1 =
      (Input.script tok inp).1 ∧
    (Input.type tok { inp with _witnesses := x }).1 =
      (Input.type tok inp).1 ∧
    (Input.addresses tok { inp with _witnesses := x }).1 =
      (Input.addresses tok inp).1 := by
  rcases inp with ⟨sl, ss, sz, hx, th, sc, sq, wt, ad, vl, vh⟩
  refine ⟨rfl, rfl, ?_, ?_, ?_, ?_, ?_⟩
  · cases th <;> rfl
  · cases sq <;> rfl
  · cases sc <;> rfl
  · cases sc <;> rfl
  · cases ad with
    | some l => rfl
    | none =>
      have hs : (Input.script tok
            ⟨sl, ss, sz, hx, th, sc, sq, x, none, vl, vh⟩).1 =
          (Input.script tok ⟨sl, ss, sz, hx, th, sc, sq, wt, none, vl, vh⟩).1 := by
        cases sc <;> rfl
      rw [addresses_closed_form tok _ rfl, addresses_closed_form tok _ rfl, hs]

/-- C9: for every constructed record the witness sequence starts empty;
attaching items `w1 … wk` (modelled as a fold of `add_witness`) makes the
`witnesses` accessor return exactly that list in call order, while the
size, stored byte range, previous-output hash, sequence number, script,
template and addresses-property value all stay what they were. -/
theorem C9_witness_attachment_frame (tok : List Nat → ScriptInfo)
    (raw : List Nat) (inp : Input) (ws : List (List Nat))
    (hok : Input.from_hex raw = .ok inp) :
    inp.witnesses = [] ∧
    (ws.foldl Input.add_witness inp).witnesses = ws ∧
    (ws.foldl Input.add_witness inp).size = inp.size ∧
    (ws.foldl Input.add_witness inp).hex = inp.hex ∧
    (ws.foldl Input.add_witness inp).transaction_hash.1 =
      inp.transaction_hash.1 ∧
    (ws.foldl Input.add_witness inp).sequence_number.1 =
      inp.sequence_number.1 ∧
    (Input.script tok (ws.foldl Input.add_witness inp)).1 =
      (Input.script tok inp).1 ∧
    (Input.type tok (ws.foldl Input.add_witness inp)).1 =
      (Input.type tok inp).1 ∧
    (Input.addresses tok (ws.foldl Input.add_witness inp)).1 =
      (Input.addresses tok inp).1 := by
  obtain ⟨hw, -, -, -⟩ := from_hex_memos_unset hok
  have hfold := foldl_add_witness ws inp
  have hacc := accessors_ignore_witnesses tok inp (inp._witnesses ++ ws)
  rw [hfold]
  have hwit : Input.witnesses { inp with _witnesses := inp._witnesses ++ ws } =
      inp._witnesses ++ ws := rfl
  refine ⟨hw, ?_, hacc.1, hacc.2.1, hacc.2.2.1, hacc.2.2.2.1,
    hacc.2.2.2.2.1, hacc.2.2.2.2.2.1, hacc.2.2.2.2.2.2⟩
  rw [hwit, hw, List.nil_append]

/-- Witness for C9 at the concrete record `cInpA` with two attached
items. -/
theorem C9_witness_attachment_frame_witness :
    Input.from_hex rawA = .ok cInpA ∧
    (cInpA.witnesses = [] ∧
     ([[7], [8]].foldl Input.add_witness cInpA).witnesses = [[7], [8]] ∧
     ([[7], [8]].foldl Input.add_witness cInpA).size = cInpA.size ∧
     ([[7], [8]].foldl Input.add_witness cInpA).hex = cInpA.hex ∧
     ([[7], [8]].foldl Input.add_witness cInpA).transaction_hash.1 =
       cInpA.transaction_hash.1 ∧
     ([[7], [8]].foldl Input.add_witness cInpA).sequence_number.1 =
       cInpA.sequence_number.1 ∧
     (Input.script tokPKH ([[7], [8]].foldl Input.add_witness cInpA)).1 =
       (Input.script tokPKH cInpA).1 ∧
     (Input.type tokPKH ([[7], [8]].foldl Input.add_witness cInpA)).1 =
       (Input.type tokPKH cInpA).1 ∧
     (Input.addresses tokPKH ([[7], [8]].foldl Input.add_witness cInpA)).1 =
       (Input.addresses tokPKH cInpA).1) :=
  ⟨by rfl, C9_witness_attachment_frame tokPKH rawA cInpA [[7], [8]] (by rfl)⟩

/-! ## C10: the `value` property -/

/-- Reading `value` with both `_value` and `_value_hex` unset raises
`AttributeError` and changes nothing. -/
theorem value_fails (inp : Input) (h1 : inp._value = none)
    (h2 : inp._value_hex = none) :
    Input.value inp = (.error .attributeError, inp) := by
  rcases inp with ⟨sl, ss, sz, hx, th, sc, sq, wt, ad, vl, vh⟩
  simp only at h1 h2
  subst h1
  subst h2
  rfl

/-- No operation of the class ever assigns `_value_hex`, and none can
assign `_value` while `_value_hex` is unset. -/
theorem applyOp_value_frame (tok : List Nat → ScriptInfo) (inp : Input)
    (op : ClassOp) (h1 : inp._value = none) (h2 : inp._value_hex = none) :
    (applyOp tok inp op)._value = none ∧
    (applyOp tok inp op)._value_hex = none := by
  cases op with
  | addWitness w =>
    rcases inp with ⟨sl, ss, sz, hx, th, sc, sq, wt, ad, vl, vh⟩
    exact ⟨h1, h2⟩
  | getTransactionHash =>
    rcases inp with ⟨sl, ss, sz, hx, th, sc, sq, wt, ad, vl, vh⟩
    cases th <;> exact ⟨h1, h2⟩
  | getSequenceNumber =>
    rcases inp with ⟨sl, ss, sz, hx, th, sc, sq, wt, ad, vl, vh⟩
    cases sq <;> exact ⟨h1, h2⟩
  | getScript =>
    rcases inp with ⟨sl, ss, sz, hx, th, sc, sq, wt, ad, vl, vh⟩
    cases sc <;> exact ⟨h1, h2⟩
  | getType =>
    rcases inp with ⟨sl, ss, sz, hx, th, sc, sq, wt, ad, vl, vh⟩
    cases sc <;> exact ⟨h1, h2⟩
  | getWitnesses => exact ⟨h1, h2⟩
  | getAddresses =>
    cases had : inp._addresses with
    | some l =>
      rw [show applyOp tok inp .getAddresses = (Input.addresses tok inp).2 from rfl,
        addresses_memo_hit tok inp l had]
      exact ⟨h1, h2⟩
    | none =>
      rw [show applyOp tok inp .getAddresses = (Input.addresses tok inp).2 from rfl,
        addresses_closed_form tok inp had]
      rcases inp with ⟨sl, ss, sz, hx, th, sc, sq, wt, ad, vl, vh⟩
      exact ⟨h1, h2⟩
  | getValue =>
    rw [show applyOp tok inp .getValue = (Input.value inp).2 from rfl,
      value_fails inp h1 h2]
    exact ⟨h1, h2⟩

/-- The invariant holds along every sequence of class operations. -/
theorem foldl_value_frame (tok : List Nat → ScriptInfo)
    (ops : List ClassOp) (inp : Input)
    (h1 : inp._value = none) (h2 : inp._value_hex = none) :
    (ops.foldl (applyOp tok) inp)._value = none ∧
    (ops.foldl (applyOp tok) inp)._value_hex = none := by
  induction ops generalizing inp with
  | nil => exact ⟨h1, h2⟩
  | cons op rest ih =>
    rw [List.foldl_cons]
    obtain ⟨g1, g2⟩ := applyOp_value_frame tok inp op h1 h2
    exact ih (applyOp tok inp op) g1 g2

/-- C10: for every constructed record and every sequence of class
operations performed on it, `_value_hex` is still unset and accessing the
`value` property fails with `AttributeError` instead of returning a
satoshi amount. -/
theorem C10_value_always_fails (tok : List Nat → ScriptInfo)
    (raw : List Nat) (inp : Input) (ops : List ClassOp)
    (hok : Input.from_hex raw = .ok inp) :
    (ops.foldl (applyOp tok) inp)._value_hex = none ∧
    (Input.value (ops.foldl (applyOp tok) inp)).1 = .error .attributeError := by
  obtain ⟨-, -, hv, hvh⟩ := from_hex_memos_unset hok
  obtain ⟨g1, g2⟩ := foldl_value_frame tok ops inp hv hvh
  refine ⟨g2, ?_⟩
  rw [value_fails _ g1 g2]

/-- Witness for C10 at the concrete record `cInpA` under a concrete
operation sequence exercising every accessor. -/
theorem C10_value_always_fails_witness :
    Input.from_hex rawA = .ok cInpA ∧
    (([ClassOp.addWitness [7], ClassOp.getAddresses, ClassOp.getType,
       ClassOp.getSequenceNumber, ClassOp.getTransactionHash,
       ClassOp.getValue].foldl (applyOp tokPKH) cInpA)._value_hex = none ∧
     (Input.value ([ClassOp.addWitness [7], ClassOp.getAddresses,
       ClassOp.getType, ClassOp.getSequenceNumber,
       ClassOp.getTransactionHash,
       ClassOp.getValue].foldl (applyOp tokPKH) cInpA)).1 =
        .error .attributeError) :=
  ⟨by rfl,
   C10_value_always_fails tokPKH rawA cInpA
     [ClassOp.addWitness [7], ClassOp.getAddresses, ClassOp.getType,
      ClassOp.getSequenceNumber, ClassOp.getTransactionHash,
      ClassOp.getValue] (by rfl)⟩

/-! ## C8: purity and determinism of address resolution -/


/-- C8 counterexample: two successive accesses of the same record's
`addresses` do not always yield equal results.  With a tokenizer whose
`pubkeyhash` script has no operand at index 2, the first access raises
`IndexError` after setting the memo to the empty list, so the second
access returns `None` without error — the error is swallowed on repeat
access and the two results differ. -/
theorem C8_counterexample_two_accesses_differ :
    (Input.addresses tokBadPKH cInpA).1 = .error .indexError ∧
    (Input.addresses tokBadPKH ((Input.addresses tokBadPKH cInpA).2)).1 =
      .ok none ∧
    (Input.addresses tokBadPKH cInpA).1 ≠
      (Input.addresses tokBadPKH ((Input.addresses tokBadPKH cInpA).2)).1 := by
  refine ⟨rfl, rfl, ?_⟩
  intro hcontra
  have h1 : (Input.addresses tokBadPKH cInpA).1 = .error .indexError := rfl
  have h2 : (Input.addresses tokBadPKH
      ((Input.addresses tokBadPKH cInpA).2)).1 = .ok none := rfl
  rw [h1, h2] at hcontra
  exact Except.noConfusion hcontra

/-- C8 amended: address resolution is a pure function of the record's
stored byte range (given the tokenizer): two records constructed from
buffers with equal stored ranges are equal records, and whenever an
access succeeds it returns `None` and its post-state is a fixed point —
every later access returns the same `None` result with no further state
change.  (Only a first access that raises breaks repeat-equality, as the
counterexample shows.) -/
theorem C8_amended_resolution_pure (tok : List Nat → ScriptInfo)
    (raw1 raw2 : List Nat) (i1 i2 : Input)
    (r : Option (List Address)) (j : Input)
    (h1 : Input.from_hex raw1 = .ok i1) (h2 : Input.from_hex raw2 = .ok i2)
    (hhex : i1.hex = i2.hex)
    (hacc : Input.addresses tok i1 = (.ok r, j)) :
    i1 = i2 ∧ r = none ∧ Input.addresses tok j = (.ok none, j) := by
  obtain ⟨L1, v1, hvar1, -⟩ := from_hex_spec h1
  obtain ⟨L2, v2, hvar2, -⟩ := from_hex_spec h2
  have e1 : i1 =
      { _script_length := L1
        _script_start := 36 + v1
        size := 36 + v1 + L1 + 4
        hex := raw1.take (36 + v1 + L1 + 4)
        _transaction_hash := none
        _script := none
        _sequence_number := none
        _witnesses := []
        _addresses := none
        _value := none
        _value_hex := none } := by
    unfold Input.from_hex at h1
    rw [hvar1] at h1
    simp only [Except.ok.injEq] at h1
    exact h1.symm
  have e2 : i2 =
      { _script_length := L2
        _script_start := 36 + v2
        size := 36 + v2 + L2 + 4
        hex := raw2.take (36 + v2 + L2 + 4)
        _transaction_hash := none
        _script := none
        _sequence_number := none
        _witnesses := []
        _addresses := none
        _value := none
        _value_hex := none } := by
    unfold Input.from_hex at h2
    rw [hvar2] at h2
    simp only [Except.ok.injEq] at h2
    exact h2.symm
  have hd1 : decode_varint (i1.hex.drop 36) = .ok (L1, v1) := by
    rw [e1]
    dsimp only
    rw [List.drop_take]
    exact decode_varint_take _ hvar1 (by omega)
  have hd2 : decode_varint (i2.hex.drop 36) = .ok (L2, v2) := by
    rw [e2]
    dsimp only
    rw [List.drop_take]
    exact decode_varint_take _ hvar2 (by omega)
  rw [hhex] at hd1
  have hpair := hd1.symm.trans hd2
  simp only [Except.ok.injEq, Prod.mk.injEq] at hpair
  obtain ⟨hL, hv⟩ := hpair
  subst hL
  subst hv
  have hi12 : i1 = i2 := by
    rw [e1, e2] at hhex ⊢
    dsimp only at hhex
    rw [hhex]
  obtain ⟨hr, hsome⟩ := addresses_ok_inv tok i1 r j hacc
  refine ⟨hi12, hr, ?_⟩
  cases hj : j._addresses with
  | none => rw [hj] at hsome; exact absurd hsome (by simp)
  | some l => exact addresses_memo_hit tok j l hj


/-- Witness for the amended C8 at the concrete record `cInpA` (used for
both constructions) and the concrete successful access under
`tokPKH`. -/
theorem C8_amended_resolution_pure_witness :
    Input.from_hex rawA = .ok cInpA ∧
    cInpA.hex = cInpA.hex ∧
    Input.addresses tokPKH cInpA = (.ok none, cInpAfterPKH) ∧
    (cInpA = cInpA ∧ (none : Option (List Address)) = none ∧
     Input.addresses tokPKH cInpAfterPKH = (.ok none, cInpAfterPKH)) :=
  ⟨by rfl, rfl, by rfl,
   C8_amended_resolution_pure tokPKH rawA rawA cInpA cInpA none cInpAfterPKH
     (by rfl) (by rfl) rfl (by rfl)⟩

end Btc
